import Mathlib

/-!
Shallow embedding of `src/project_state.py` (class `ProjectState`) from the
Orbea-Monegros-2024 repository, and verification of the specification's
claims about the stage orchestrator.

Modelling decisions, each traceable to the source:

* A pandas `DataFrame` is opaque to the orchestrator; we model it by an
  abstract token type (`DataFrame := Nat`).
* The per-stage functions `ex1.main .. ex5.main` are external collaborators
  with side effects (file IO, plotting).  We model them as functions
  threading an abstract external world `σ`, returning either a value or a
  raised Python exception.  `ex1.main` takes no argument; `ex2..ex5` take
  the optional previous dataframe; `ex5.main`'s return value is discarded
  by the orchestrator (its assignment is absent in the source, line 80).
* Python exceptions are modelled by `PyExc`: the four classes named in the
  source's `except` clauses (`ValueError`, `ImportError`, `AttributeError`,
  `RuntimeError`) plus `other` for any exception of a different class,
  which the `except` chain does not catch and which therefore propagates.
* A call outcome is `POut`: either a normal return (`ret world state bool`)
  or a propagating exception (`exc e world state`); the world and the
  mutable `ProjectState` object survive an escaping exception.
-/

/-- Claim-level stand-in for a pandas DataFrame: an opaque token. -/
abbrev DataFrame := Nat

/-- Python exception classes relevant to `run_exercise`: the four caught by
its `except` chain (source lines 86-97), and `other` for any exception of a
class not named there. -/
inductive PyExc where
  | valueError : PyExc
  | importError : PyExc
  | attributeError : PyExc
  | runtimeError : PyExc
  | other : PyExc
deriving DecidableEq

/-- The mutable run state of the `ProjectState` class (source lines 30-34):
`executed_exercises`, `last_dataframe`, `current_exercise`. -/
structure ProjectState where
  executed_exercises : Finset Nat
  last_dataframe : Option DataFrame
  current_exercise : Option Nat
deriving DecidableEq

/-- `__init__` (source lines 30-34): empty set, `None`, `None`. -/
def initialState : ProjectState :=
  { executed_exercises := ∅, last_dataframe := none, current_exercise := none }

/-- The ids of the `EJERCICIOS` catalogue (source lines 22-28); the
descriptions only feed `print` and are irrelevant to control flow. -/
def EJERCICIOS : Finset Nat := {1, 2, 3, 4, 5}

/-- The five external stage functions `ex1.main .. ex5.main`, threading an
abstract external world `σ` and possibly raising. -/
structure Exercises (σ : Type) where
  ex1 : σ → σ × Except PyExc DataFrame
  ex2 : σ → Option DataFrame → σ × Except PyExc DataFrame
  ex3 : σ → Option DataFrame → σ × Except PyExc DataFrame
  ex4 : σ → Option DataFrame → σ × Except PyExc DataFrame
  ex5 : σ → Option DataFrame → σ × Except PyExc Unit

/-- Outcome of a call into the orchestrator: a normal boolean return, or an
exception escaping the frame (with the world and object state at that
point). -/
inductive POut (σ : Type) where
  | ret : σ → ProjectState → Bool → POut σ
  | exc : PyExc → σ → ProjectState → POut σ
deriving DecidableEq

namespace POut

/-- True when the call returned normally. -/
def isRet : POut σ → Bool
  | .ret _ _ _ => true
  | .exc _ _ _ => false

/-- The external world after the call. -/
def worldOf : POut σ → σ
  | .ret w _ _ => w
  | .exc _ w _ => w

/-- The `ProjectState` object after the call. -/
def stateOf : POut σ → ProjectState
  | .ret _ s _ => s
  | .exc _ _ s => s

/-- The boolean result, when the call returned normally. -/
def boolOf : POut σ → Option Bool
  | .ret _ _ b => some b
  | .exc _ _ _ => none

end POut

/-- The `except` chain of `run_exercise` (source lines 86-97): a raised
exception of one of the four named classes yields `return False`; any other
exception propagates. -/
def tryCatchExc : PyExc → σ → ProjectState → POut σ
  | .valueError, w, s => .ret w s false
  | .importError, w, s => .ret w s false
  | .attributeError, w, s => .ret w s false
  | .runtimeError, w, s => .ret w s false
  | .other, w, s => .exc .other w s

/-- The `if/elif` dispatch of source lines 71-80: calls the stage function
for `n` on the current `last_dataframe`, returning the new value that the
assignment would store (`ex5`'s result is not assigned, so `last_dataframe`
is passed through unchanged; an `n` matching no branch leaves it unchanged
too). -/
def execCall (E : Exercises σ) (n : Nat) (w : σ) (df : Option DataFrame) :
    σ × Except PyExc (Option DataFrame) :=
  if n = 1 then
    let p := E.ex1 w
    (p.1, p.2.map some)
  else if n = 2 then
    let p := E.ex2 w df
    (p.1, p.2.map some)
  else if n = 3 then
    let p := E.ex3 w df
    (p.1, p.2.map some)
  else if n = 4 then
    let p := E.ex4 w df
    (p.1, p.2.map some)
  else if n = 5 then
    let p := E.ex5 w df
    (p.1, p.2.map (fun _ => df))
  else (w, .ok df)

/-- Source lines 71-97 applied to the state reached after prerequisite
resolution: execute stage `n`; on success assign `last_dataframe`, add `n`
to `executed_exercises` and return `True`; on a raised exception run the
`except` chain. -/
def execPhase (E : Exercises σ) (n : Nat) (w : σ) (s : ProjectState) : POut σ :=
  match execCall E n w s.last_dataframe with
  | (w2, .error e) => tryCatchExc e w2 s
  | (w2, .ok d) =>
      .ret w2
        { s with last_dataframe := d,
                 executed_exercises := insert n s.executed_exercises } true

/-- `ProjectState.run_exercise` (source lines 36-97).  For `n = 0` and for
any `n` outside the catalogue, the `raise ValueError` of line 51 is caught
by the function's own handler (line 86) and yields `False`.  For `n = m+1`
in the catalogue: if `n > 1`, save `current_exercise`, set it to `n`, run
the previous exercise when it is not yet executed (its boolean result is
discarded; an exception escaping it skips the restore, as in Python), then
restore the marker; finally execute stage `n` under the `try`. -/
def run_exercise (E : Exercises σ) : Nat → σ → ProjectState → POut σ
  | 0, w, s => tryCatchExc .valueError w s
  | m + 1, w, s =>
    if m + 1 ∈ EJERCICIOS then
      let pr : Except (PyExc × σ × ProjectState) (σ × ProjectState) :=
        if 0 < m then
          let saved := s.current_exercise
          let s1 := { s with current_exercise := some (m + 1) }
          if m ∉ s1.executed_exercises then
            match run_exercise E m w s1 with
            | .exc e w2 s2 => .error (e, w2, s2)
            | .ret w2 s2 _b => .ok (w2, { s2 with current_exercise := saved })
          else .ok (w, { s1 with current_exercise := saved })
        else .ok (w, s)
      match pr with
      | .error (e, w2, s2) => tryCatchExc e w2 s2
      | .ok (w1, s1) => execPhase E (m + 1) w1 s1
    else tryCatchExc .valueError w s

/-- The prerequisite-resolution block (source lines 54-65) as a standalone
function: `run_exercise` at a catalogue id factors through it (see
`run_exercise_factor`). -/
def prereq (E : Exercises σ) (n : Nat) (w : σ) (s : ProjectState) :
    Except (PyExc × σ × ProjectState) (σ × ProjectState) :=
  if 1 < n then
    let saved := s.current_exercise
    let s1 := { s with current_exercise := some n }
    if n - 1 ∉ s1.executed_exercises then
      match run_exercise E (n - 1) w s1 with
      | .exc e w2 s2 => .error (e, w2, s2)
      | .ret w2 s2 _b => .ok (w2, { s2 with current_exercise := saved })
    else .ok (w, { s1 with current_exercise := saved })
  else .ok (w, s)

/-- The `all(self.run_exercise(i) for i in ...)` fold of source line 108:
short-circuits at the first `False`; an escaping exception propagates. -/
def runAllAux (E : Exercises σ) : List Nat → σ → ProjectState → POut σ
  | [], w, s => .ret w s true
  | i :: rest, w, s =>
    match run_exercise E i w s with
    | .exc e w2 s2 => .exc e w2 s2
    | .ret w2 s2 b => if b then runAllAux E rest w2 s2 else .ret w2 s2 false

/-- `ProjectState.run_all_exercises` (source lines 99-108): clear
`executed_exercises`, then `all(self.run_exercise(i) for i in range(1, 6))`. -/
def run_all_exercises (E : Exercises σ) (w : σ) (s : ProjectState) : POut σ :=
  runAllAux E (List.range' 1 5) w { s with executed_exercises := ∅ }

/-- Instrumentation: the same stage functions, with the world extended by a
log of the stage ids invoked (appended even when the stage raises — the
call did happen). -/
def traced (E : Exercises σ) : Exercises (List Nat × σ) where
  ex1 := fun p =>
    let q := E.ex1 p.2
    ((p.1 ++ [1], q.1), q.2)
  ex2 := fun p df =>
    let q := E.ex2 p.2 df
    ((p.1 ++ [2], q.1), q.2)
  ex3 := fun p df =>
    let q := E.ex3 p.2 df
    ((p.1 ++ [3], q.1), q.2)
  ex4 := fun p df =>
    let q := E.ex4 p.2 df
    ((p.1 ++ [4], q.1), q.2)
  ex5 := fun p df =>
    let q := E.ex5 p.2 df
    ((p.1 ++ [5], q.1), q.2)

/-- A concrete family of stage functions whose world is its own invocation
log: stage `k`, on its `c`-th invocation (counting from 0), behaves as
`beh k c`.  Used for concrete scenarios such as a stage failing once and
succeeding on retry. -/
def scripted (beh : Nat → Nat → Except PyExc DataFrame) : Exercises (List Nat) where
  ex1 := fun t => (t ++ [1], beh 1 (t.count 1))
  ex2 := fun t _ => (t ++ [2], beh 2 (t.count 2))
  ex3 := fun t _ => (t ++ [3], beh 3 (t.count 3))
  ex4 := fun t _ => (t ++ [4], beh 4 (t.count 4))
  ex5 := fun t _ => (t ++ [5], (beh 5 (t.count 5)).map fun _ => ())

/-- Every stage function returns normally (no exception), from every world
and input. -/
def AlwaysOk (E : Exercises σ) : Prop :=
  (∀ w, ∃ w2 v, E.ex1 w = (w2, .ok v)) ∧
  (∀ w df, ∃ w2 v, E.ex2 w df = (w2, .ok v)) ∧
  (∀ w df, ∃ w2 v, E.ex3 w df = (w2, .ok v)) ∧
  (∀ w df, ∃ w2 v, E.ex4 w df = (w2, .ok v)) ∧
  (∀ w df, ∃ w2 v, E.ex5 w df = (w2, .ok v))

/-- Every stage function either returns or raises one of the four exception
classes of the §7 taxonomy — never an exception of another class. -/
def NoOther (E : Exercises σ) : Prop :=
  (∀ w, (E.ex1 w).2 ≠ .error .other) ∧
  (∀ w df, (E.ex2 w df).2 ≠ .error .other) ∧
  (∀ w df, (E.ex3 w df).2 ≠ .error .other) ∧
  (∀ w df, (E.ex4 w df).2 ≠ .error .other) ∧
  (∀ w df, (E.ex5 w df).2 ≠ .error .other)

/-- All stages succeed, stage `k` returning token `100 + k`. -/
def behOK : Nat → Nat → Except PyExc DataFrame := fun k _ => .ok (100 + k)

/-- The spec's scenario behaviour: stage 2 raises `RuntimeError` on its
first invocation and succeeds from the second on; every other stage always
succeeds. -/
def behRetry2 : Nat → Nat → Except PyExc DataFrame := fun k c =>
  if k = 2 ∧ c = 0 then .error .runtimeError else .ok (100 + k)

/-- Stage 1 always raises `RuntimeError`; every other stage succeeds. -/
def behFail1 : Nat → Nat → Except PyExc DataFrame := fun k _ =>
  if k = 1 then .error .runtimeError else .ok (100 + k)

/-- Stage 3 always raises `RuntimeError`; every other stage succeeds. -/
def behFail3 : Nat → Nat → Except PyExc DataFrame := fun k _ =>
  if k = 3 then .error .runtimeError else .ok (100 + k)

/-- A probing environment: stage 1 always raises `RuntimeError`, and stage
2 succeeds with a value revealing its input (`42` exactly when it received
`None`).  World = invocation log. -/
def probeE : Exercises (List Nat) where
  ex1 := fun t => (t ++ [1], .error .runtimeError)
  ex2 := fun t df => (t ++ [2], .ok (match df with | none => 42 | some v => v + 1))
  ex3 := fun t _ => (t ++ [3], .ok 3)
  ex4 := fun t _ => (t ++ [4], .ok 4)
  ex5 := fun t _ => (t ++ [5], .ok ())

/-! ### Basic equations and helper lemmas -/

theorem mem_EJERCICIOS {n : Nat} : n ∈ EJERCICIOS ↔ 1 ≤ n ∧ n ≤ 5 := by
  simp only [EJERCICIOS, Finset.mem_insert, Finset.mem_singleton]
  omega

theorem state_eta (s : ProjectState) :
    { s with current_exercise := s.current_exercise } = s := rfl

theorem run_exercise_invalid (E : Exercises σ) (n : Nat) (w : σ) (s : ProjectState)
    (hn : n ∉ EJERCICIOS) : run_exercise E n w s = .ret w s false := by
  cases n with
  | zero => rfl
  | succ m => rw [run_exercise, if_neg hn]; rfl

theorem run_exercise_factor (E : Exercises σ) (n : Nat) (w : σ) (s : ProjectState)
    (hn : n ∈ EJERCICIOS) :
    run_exercise E n w s =
      match prereq E n w s with
      | .error (e, w2, s2) => tryCatchExc e w2 s2
      | .ok (w1, s1) => execPhase E n w1 s1 := by
  cases n with
  | zero => exact absurd hn (by decide)
  | succ m =>
      rw [run_exercise, if_pos hn, prereq]
      simp only [Nat.succ_sub_one, Nat.lt_add_one_iff, Nat.succ_le_iff]

theorem tryCatchExc_stateOf (e : PyExc) (w : σ) (s : ProjectState) :
    (tryCatchExc e w s).stateOf = s := by
  cases e <;> rfl

theorem tryCatchExc_worldOf (e : PyExc) (w : σ) (s : ProjectState) :
    (tryCatchExc e w s).worldOf = w := by
  cases e <;> rfl

theorem tryCatchExc_caught (e : PyExc) (he : e ≠ .other) (w : σ) (s : ProjectState) :
    tryCatchExc e w s = .ret w s false := by
  cases e <;> first | rfl | exact absurd rfl he

theorem tryCatchExc_ne_ret_true (e : PyExc) (w w2 : σ) (s s2 : ProjectState) :
    tryCatchExc e w s ≠ .ret w2 s2 true := by
  cases e <;> simp [tryCatchExc]

theorem prereq_low (E : Exercises σ) (n : Nat) (w : σ) (s : ProjectState)
    (h : ¬ 1 < n) : prereq E n w s = .ok (w, s) := by
  rw [prereq, if_neg h]

theorem prereq_skip (E : Exercises σ) (n : Nat) (w : σ) (s : ProjectState)
    (h1 : 1 < n) (hm : n - 1 ∈ s.executed_exercises) :
    prereq E n w s = .ok (w, s) := by
  rw [prereq, if_pos h1, if_neg (not_not_intro hm)]

theorem prereq_enter (E : Exercises σ) (n : Nat) (w : σ) (s : ProjectState)
    (h1 : 1 < n) (hm : n - 1 ∉ s.executed_exercises) :
    prereq E n w s =
      match run_exercise E (n - 1) w { s with current_exercise := some n } with
      | .exc e w2 s2 => .error (e, w2, s2)
      | .ret w2 s2 _b => .ok (w2, { s2 with current_exercise := s.current_exercise }) := by
  rw [prereq, if_pos h1, if_pos hm]

theorem run_exercise_skip (E : Exercises σ) (n : Nat) (w : σ) (s : ProjectState)
    (hn : n ∈ EJERCICIOS) (hm : n = 1 ∨ n - 1 ∈ s.executed_exercises) :
    run_exercise E n w s = execPhase E n w s := by
  rw [run_exercise_factor E n w s hn]
  rcases hm with rfl | hm
  · rw [prereq_low E 1 w s (by omega)]
  · by_cases h1 : 1 < n
    · rw [prereq_skip E n w s h1 hm]
    · rw [prereq_low E n w s h1]

theorem run_exercise_enter (E : Exercises σ) (n : Nat) (w : σ) (s : ProjectState)
    (hn : n ∈ EJERCICIOS) (h1 : 1 < n) (hm : n - 1 ∉ s.executed_exercises) :
    run_exercise E n w s =
      match run_exercise E (n - 1) w { s with current_exercise := some n } with
      | .exc e w2 s2 => tryCatchExc e w2 s2
      | .ret w2 s2 _b =>
          execPhase E n w2 { s2 with current_exercise := s.current_exercise } := by
  rw [run_exercise_factor E n w s hn, prereq_enter E n w s h1 hm]
  cases run_exercise E (n - 1) w { s with current_exercise := some n } <;> rfl

theorem exceptMap_eq_error {α β : Type} (f : α → β) (r : Except PyExc α) (e : PyExc)
    (h : r.map f = .error e) : r = .error e := by
  cases r with
  | error e2 => cases h; rfl
  | ok v => simp [Except.map] at h

theorem execCall_noOther (E : Exercises σ) (hE : NoOther E) (n : Nat) (w : σ)
    (df : Option DataFrame) (e : PyExc)
    (h : (execCall E n w df).2 = .error e) : e ≠ .other := by
  rintro rfl
  unfold execCall at h
  split_ifs at h with h1 h2 h3 h4 h5
  · exact hE.1 w (exceptMap_eq_error _ _ _ h)
  · exact hE.2.1 w df (exceptMap_eq_error _ _ _ h)
  · exact hE.2.2.1 w df (exceptMap_eq_error _ _ _ h)
  · exact hE.2.2.2.1 w df (exceptMap_eq_error _ _ _ h)
  · exact hE.2.2.2.2 w df (exceptMap_eq_error _ _ _ h)


theorem run_exercise_enter_ret (E : Exercises σ) (m : Nat) (w : σ) (s : ProjectState)
    (w2 : σ) (s2 : ProjectState) (b : Bool)
    (hn : m + 1 ∈ EJERCICIOS) (h1 : 0 < m) (hm : m ∉ s.executed_exercises)
    (hrec : run_exercise E m w { s with current_exercise := some (m + 1) } = .ret w2 s2 b) :
    run_exercise E (m + 1) w s =
      execPhase E (m + 1) w2 { s2 with current_exercise := s.current_exercise } := by
  rw [run_exercise_enter E (m + 1) w s hn (by omega) (by simpa using hm)]
  simp only [Nat.add_sub_cancel]
  rw [hrec]

theorem run_exercise_enter_exc (E : Exercises σ) (m : Nat) (w : σ) (s : ProjectState)
    (e : PyExc) (w2 : σ) (s2 : ProjectState)
    (hn : m + 1 ∈ EJERCICIOS) (h1 : 0 < m) (hm : m ∉ s.executed_exercises)
    (hrec : run_exercise E m w { s with current_exercise := some (m + 1) } = .exc e w2 s2) :
    run_exercise E (m + 1) w s = tryCatchExc e w2 s2 := by
  rw [run_exercise_enter E (m + 1) w s hn (by omega) (by simpa using hm)]
  simp only [Nat.add_sub_cancel]
  rw [hrec]

theorem execPhase_exc (E : Exercises σ) (n : Nat) (w : σ) (s : ProjectState)
    (e : PyExc) (w2 : σ) (s2 : ProjectState)
    (h : execPhase E n w s = .exc e w2 s2) : e = .other := by
  unfold execPhase at h
  rcases hec : execCall E n w s.last_dataframe with ⟨w3, r⟩
  rw [hec] at h
  cases r with
  | ok d => simp at h
  | error e3 =>
      cases e3 <;> simp [tryCatchExc] at h
      exact h.1.symm

theorem exc_only_other (E : Exercises σ) :
    ∀ (n : Nat) (w : σ) (s : ProjectState) (e : PyExc) (w2 : σ) (s2 : ProjectState),
      run_exercise E n w s = .exc e w2 s2 → e = .other := by
  intro n
  induction n with
  | zero =>
      intro w s e w2 s2 h
      simp [run_exercise, tryCatchExc] at h
  | succ m ih =>
      intro w s e w2 s2 h
      by_cases hn : m + 1 ∈ EJERCICIOS
      · by_cases hc : 0 < m ∧ m ∉ s.executed_exercises
        · rcases hrec : run_exercise E m w
              { s with current_exercise := some (m + 1) } with ⟨w4, s4, b⟩ | ⟨e4, w4, s4⟩
          · rw [run_exercise_enter_ret E m w s w4 s4 b hn hc.1 hc.2 hrec] at h
            exact execPhase_exc E (m + 1) w4 _ e w2 s2 h
          · rw [run_exercise_enter_exc E m w s e4 w4 s4 hn hc.1 hc.2 hrec] at h
            have he4 : e4 = .other := ih w _ e4 w4 s4 hrec
            subst he4
            simp [tryCatchExc] at h
            exact h.1.symm
        · have hm : m + 1 = 1 ∨ (m + 1) - 1 ∈ s.executed_exercises := by
            rcases not_and_or.mp hc with h1 | h2
            · left; omega
            · right; simpa using not_not.mp h2
          rw [run_exercise_skip E (m + 1) w s hn hm] at h
          exact execPhase_exc E (m + 1) w s e w2 s2 h
      · rw [run_exercise_invalid E (m + 1) w s hn] at h
        simp at h

theorem execPhase_executed_mono (E : Exercises σ) (n : Nat) (w : σ) (s : ProjectState) :
    s.executed_exercises ⊆ ((execPhase E n w s).stateOf).executed_exercises := by
  unfold execPhase
  rcases execCall E n w s.last_dataframe with ⟨w2, r⟩
  cases r with
  | error e => rw [tryCatchExc_stateOf]
  | ok d => exact Finset.subset_insert _ _

theorem run_exercise_executed_mono (E : Exercises σ) :
    ∀ (n : Nat) (w : σ) (s : ProjectState),
      s.executed_exercises ⊆ ((run_exercise E n w s).stateOf).executed_exercises := by
  intro n
  induction n with
  | zero => intro w s; rw [run_exercise, tryCatchExc_stateOf]
  | succ m ih =>
      intro w s
      by_cases hn : m + 1 ∈ EJERCICIOS
      · by_cases hc : 0 < m ∧ m ∉ s.executed_exercises
        · rcases hrec : run_exercise E m w
              { s with current_exercise := some (m + 1) } with ⟨w4, s4, b⟩ | ⟨e4, w4, s4⟩
          · rw [run_exercise_enter_ret E m w s w4 s4 b hn hc.1 hc.2 hrec]
            have h2 := ih w { s with current_exercise := some (m + 1) }
            rw [hrec] at h2
            simp only [POut.stateOf] at h2
            have h3 := execPhase_executed_mono E (m + 1) w4
              { s4 with current_exercise := s.current_exercise }
            exact h2.trans h3
          · rw [run_exercise_enter_exc E m w s e4 w4 s4 hn hc.1 hc.2 hrec]
            have h2 := ih w { s with current_exercise := some (m + 1) }
            rw [hrec] at h2
            rw [tryCatchExc_stateOf]
            exact h2
        · have hm : m + 1 = 1 ∨ (m + 1) - 1 ∈ s.executed_exercises := by
            rcases not_and_or.mp hc with h1 | h2
            · left; omega
            · right; simpa using not_not.mp h2
          rw [run_exercise_skip E (m + 1) w s hn hm]
          exact execPhase_executed_mono E (m + 1) w s
      · rw [run_exercise_invalid E (m + 1) w s hn]
        exact Finset.Subset.refl _

theorem noOther_execPhase (E : Exercises σ) (hE : NoOther E) (n : Nat) (w : σ)
    (s : ProjectState) : (execPhase E n w s).isRet = true := by
  unfold execPhase
  rcases hec : execCall E n w s.last_dataframe with ⟨w2, r⟩
  cases r with
  | ok d => rfl
  | error e =>
      have he : e ≠ .other := execCall_noOther E hE n w s.last_dataframe e (by rw [hec])
      show (tryCatchExc e w2 s).isRet = true
      rw [tryCatchExc_caught e he]
      rfl

/-- Totality of `run_exercise` under the §7 taxonomy: when every stage
function raises only the four catalogued exception classes, every call
returns a boolean. -/
theorem noOther_run_exercise (E : Exercises σ) (hE : NoOther E) :
    ∀ (n : Nat) (w : σ) (s : ProjectState), (run_exercise E n w s).isRet = true := by
  intro n
  induction n with
  | zero => intro w s; rfl
  | succ m ih =>
      intro w s
      by_cases hn : m + 1 ∈ EJERCICIOS
      · by_cases hc : 0 < m ∧ m ∉ s.executed_exercises
        · rcases hrec : run_exercise E m w
              { s with current_exercise := some (m + 1) } with ⟨w4, s4, b⟩ | ⟨e4, w4, s4⟩
          · rw [run_exercise_enter_ret E m w s w4 s4 b hn hc.1 hc.2 hrec]
            exact noOther_execPhase E hE (m + 1) w4 _
          · have h2 := ih w { s with current_exercise := some (m + 1) }
            rw [hrec] at h2
            simp [POut.isRet] at h2
        · have hm : m + 1 = 1 ∨ (m + 1) - 1 ∈ s.executed_exercises := by
            rcases not_and_or.mp hc with h1 | h2
            · left; omega
            · right; simpa using not_not.mp h2
          rw [run_exercise_skip E (m + 1) w s hn hm]
          exact noOther_execPhase E hE (m + 1) w s
      · rw [run_exercise_invalid E (m + 1) w s hn]
        rfl

theorem noOther_runAllAux (E : Exercises σ) (hE : NoOther E) :
    ∀ (L : List Nat) (w : σ) (s : ProjectState), (runAllAux E L w s).isRet = true := by
  intro L
  induction L with
  | nil => intro w s; rfl
  | cons i rest ih =>
      intro w s
      rw [runAllAux]
      rcases hr : run_exercise E i w s with ⟨w2, s2, b⟩ | ⟨e, w2, s2⟩
      · cases b with
        | true => simpa using ih w2 s2
        | false => rfl
      · have h2 := noOther_run_exercise E hE i w s
        rw [hr] at h2
        simp [POut.isRet] at h2

theorem isRet_exists (r : POut σ) (h : r.isRet = true) :
    ∃ w s b, r = .ret w s b := by
  cases r with
  | ret w s b => exact ⟨w, s, b, rfl⟩
  | exc e w s => simp [POut.isRet] at h

theorem ret_true_mem (E : Exercises σ) (n : Nat) (w : σ) (s : ProjectState)
    (w2 : σ) (s2 : ProjectState)
    (h : run_exercise E n w s = .ret w2 s2 true) : n ∈ s2.executed_exercises := by
  cases n with
  | zero =>
      rw [run_exercise] at h
      simp [tryCatchExc] at h
  | succ m =>
      by_cases hn : m + 1 ∈ EJERCICIOS
      · rw [run_exercise_factor E (m + 1) w s hn] at h
        rcases hpr : prereq E (m + 1) w s with ⟨e3, w3, s3⟩ | ⟨w3, s3⟩ <;> rw [hpr] at h
        · exact absurd h (tryCatchExc_ne_ret_true e3 w3 w2 s3 s2)
        · replace h : execPhase E (m + 1) w3 s3 = POut.ret w2 s2 true := h
          unfold execPhase at h
          rcases hec : execCall E (m + 1) w3 s3.last_dataframe with ⟨w4, r⟩
          rw [hec] at h
          cases r with
          | error e => exact absurd h (tryCatchExc_ne_ret_true e w4 w2 s3 s2)
          | ok d =>
              simp only [POut.ret.injEq] at h
              rw [← h.2.1]
              exact Finset.mem_insert_self _ _
      · rw [run_exercise_invalid E (m + 1) w s hn] at h
        simp at h

theorem execCall_traced (E : Exercises σ) (n : Nat) (h1 : 1 ≤ n) (h5 : n ≤ 5)
    (t : List Nat) (w : σ) (df : Option DataFrame) :
    ∃ w2 r, execCall (traced E) n (t, w) df = ((t ++ [n], w2), r) := by
  interval_cases n
  · rcases h : E.ex1 w with ⟨w2, r⟩
    exact ⟨w2, r.map some, by simp [execCall, traced, h]⟩
  · rcases h : E.ex2 w df with ⟨w2, r⟩
    exact ⟨w2, r.map some, by simp [execCall, traced, h]⟩
  · rcases h : E.ex3 w df with ⟨w2, r⟩
    exact ⟨w2, r.map some, by simp [execCall, traced, h]⟩
  · rcases h : E.ex4 w df with ⟨w2, r⟩
    exact ⟨w2, r.map some, by simp [execCall, traced, h]⟩
  · rcases h : E.ex5 w df with ⟨w2, r⟩
    exact ⟨w2, r.map (fun _ => df), by simp [execCall, traced, h]⟩

theorem execPhase_traced_world (E : Exercises σ) (n : Nat) (h1 : 1 ≤ n) (h5 : n ≤ 5)
    (t : List Nat) (w : σ) (s : ProjectState) :
    ((execPhase (traced E) n (t, w) s).worldOf).1 = t ++ [n] := by
  obtain ⟨w2, r, hec⟩ := execCall_traced E n h1 h5 t w s.last_dataframe
  unfold execPhase
  rw [hec]
  cases r with
  | error e => rw [tryCatchExc_worldOf]
  | ok d => rfl

theorem trace_extension (E : Exercises σ) :
    ∀ (n : Nat) (t : List Nat) (w : σ) (s : ProjectState),
      ∃ ext, ((run_exercise (traced E) n (t, w) s).worldOf).1 = t ++ ext ∧
        ∀ x ∈ ext, 1 ≤ x ∧ x ≤ n := by
  intro n
  induction n with
  | zero =>
      intro t w s
      exact ⟨[], by simp [run_exercise, tryCatchExc, POut.worldOf], by simp⟩
  | succ m ih =>
      intro t w s
      by_cases hn : m + 1 ∈ EJERCICIOS
      · have hb := mem_EJERCICIOS.mp hn
        by_cases hc : 0 < m ∧ m ∉ s.executed_exercises
        · rcases hrec : run_exercise (traced E) m (t, w)
              { s with current_exercise := some (m + 1) } with ⟨w4, s4, b⟩ | ⟨e4, w4, s4⟩
          · obtain ⟨ext, hext, hbound⟩ := ih t w { s with current_exercise := some (m + 1) }
            rw [hrec] at hext
            rcases w4 with ⟨t4, w4⟩
            simp only [POut.worldOf] at hext
            subst hext
            rw [run_exercise_enter_ret (traced E) m (t, w) s _ s4 b hn hc.1 hc.2 hrec]
            refine ⟨ext ++ [m + 1], ?_, ?_⟩
            · rw [execPhase_traced_world E (m + 1) (by omega) hb.2 _ w4 _]
              simp [List.append_assoc]
            · intro x hx
              rcases List.mem_append.mp hx with hx | hx
              · have := hbound x hx; omega
              · simp at hx; omega
          · obtain ⟨ext, hext, hbound⟩ := ih t w { s with current_exercise := some (m + 1) }
            rw [hrec] at hext
            rw [run_exercise_enter_exc (traced E) m (t, w) s e4 w4 s4 hn hc.1 hc.2 hrec]
            rw [tryCatchExc_worldOf]
            simp only [POut.worldOf] at hext
            exact ⟨ext, hext, fun x hx => by have := hbound x hx; omega⟩
        · have hm : m + 1 = 1 ∨ (m + 1) - 1 ∈ s.executed_exercises := by
            rcases not_and_or.mp hc with h1 | h2
            · left; omega
            · right; simpa using not_not.mp h2
          rw [run_exercise_skip (traced E) (m + 1) (t, w) s hn hm]
          refine ⟨[m + 1], ?_, by simp⟩
          exact execPhase_traced_world E (m + 1) (by omega) hb.2 t w s
      · rw [run_exercise_invalid (traced E) (m + 1) (t, w) s hn]
        exact ⟨[], by simp [POut.worldOf], by simp⟩

theorem allOk_fresh (E : Exercises σ) (hE : AlwaysOk E) :
    ∀ (n : Nat), 1 ≤ n → n ≤ 5 → ∀ (t : List Nat) (w : σ) (s : ProjectState),
      s.executed_exercises = ∅ →
      ∃ w2 d, run_exercise (traced E) n (t, w) s =
        .ret (t ++ List.range' 1 n, w2)
          ⟨Finset.Icc 1 n, some d, s.current_exercise⟩ true := by
  intro n
  induction n with
  | zero => intro h; omega
  | succ m ih =>
      intro h1 h5 t w s hs
      rcases Nat.eq_zero_or_pos m with rfl | hm
      · obtain ⟨w2, v, hx⟩ := hE.1 w
        refine ⟨w2, v, ?_⟩
        rw [run_exercise_skip (traced E) 1 (t, w) s (by decide) (Or.inl rfl)]
        unfold execPhase execCall
        simp [traced, hx, hs, Except.map]
      · have hn : m + 1 ∈ EJERCICIOS := mem_EJERCICIOS.mpr ⟨by omega, h5⟩
        obtain ⟨w2, d, hrec⟩ := ih (by omega) (by omega) t w
          { s with current_exercise := some (m + 1) } hs
        have hm4 : m ≤ 4 := by omega
        interval_cases m
        · obtain ⟨w3, v, hx⟩ := hE.2.1 w2 (some d)
          refine ⟨w3, v, ?_⟩
          rw [run_exercise_enter_ret (traced E) 1 (t, w) s _ _ true hn (by omega)
            (by simp [hs]) hrec]
          unfold execPhase execCall
          simp [traced, hx, List.append_assoc, Except.map,
            (by decide : insert 2 ({1} : Finset Nat) = Finset.Icc 1 2),
            (by decide : List.range' 1 2 = [1, 2])]
        · obtain ⟨w3, v, hx⟩ := hE.2.2.1 w2 (some d)
          refine ⟨w3, v, ?_⟩
          rw [run_exercise_enter_ret (traced E) 2 (t, w) s _ _ true hn (by omega)
            (by simp [hs]) hrec]
          unfold execPhase execCall
          simp [traced, hx, List.append_assoc, Except.map,
            (by decide : insert 3 (Finset.Icc 1 2) = Finset.Icc 1 3),
            (by decide : List.range' 1 2 ++ [3] = List.range' 1 3)]
        · obtain ⟨w3, v, hx⟩ := hE.2.2.2.1 w2 (some d)
          refine ⟨w3, v, ?_⟩
          rw [run_exercise_enter_ret (traced E) 3 (t, w) s _ _ true hn (by omega)
            (by simp [hs]) hrec]
          unfold execPhase execCall
          simp [traced, hx, List.append_assoc, Except.map,
            (by decide : insert 4 (Finset.Icc 1 3) = Finset.Icc 1 4),
            (by decide : List.range' 1 3 ++ [4] = List.range' 1 4)]
        · obtain ⟨w3, v, hx⟩ := hE.2.2.2.2 w2 (some d)
          refine ⟨w3, d, ?_⟩
          rw [run_exercise_enter_ret (traced E) 4 (t, w) s _ _ true hn (by omega)
            (by simp [hs]) hrec]
          unfold execPhase execCall
          simp [traced, hx, List.append_assoc, Except.map,
            (by decide : insert 5 (Finset.Icc 1 4) = Finset.Icc 1 5),
            (by decide : List.range' 1 4 ++ [5] = List.range' 1 5)]

/-! ### Claims -/

/-- Claim C1, as stated, is false of the code: on a fresh orchestrator with
stage 2 failing once then succeeding, the FIRST `run_stage(3)` call already
returns `true` with `completed == {1, 3}` (not `false` with `{1}`), because
line 62 of `project_state.py` discards the recursive call's boolean and
stage 3 executes anyway. -/
theorem c1_counterexample :
    (run_exercise (scripted behRetry2) 3 [] initialState).boolOf = some true ∧
    (run_exercise (scripted behRetry2) 3 [] initialState).boolOf ≠ some false ∧
    (run_exercise (scripted behRetry2) 3 [] initialState).stateOf.executed_exercises
      = {1, 3} ∧
    (run_exercise (scripted behRetry2) 3 [] initialState).stateOf.executed_exercises
      ≠ {1} := by
  refine ⟨by decide, by decide, by decide, by decide⟩

/-- Claim C1 amended: fresh orchestrator, stage 2 fails once then succeeds.
First `run_stage(3)`: stage 1 runs (ok), stage 2 runs (fails), stage 3
still runs (ok, on stage 1's output) — returns `true`, `completed == {1,3}`.
Second `run_stage(3)`: stage 1 skipped, stage 2 runs (succeeds), stage 3
runs (succeeds) — returns `true`, `completed == {1,2,3}`. -/
theorem c1_theorem :
    ((run_exercise (scripted behRetry2) 3 [] initialState).boolOf = some true ∧
     (run_exercise (scripted behRetry2) 3 [] initialState).stateOf.executed_exercises
       = {1, 3} ∧
     (run_exercise (scripted behRetry2) 3 [] initialState).worldOf = [1, 2, 3] ∧
     (run_exercise (scripted behRetry2) 3 [] initialState).stateOf.last_dataframe
       = some 103) ∧
    ((run_exercise (scripted behRetry2) 3 [1, 2, 3]
        ⟨{1, 3}, some 103, none⟩).boolOf = some true ∧
     (run_exercise (scripted behRetry2) 3 [1, 2, 3]
        ⟨{1, 3}, some 103, none⟩).stateOf.executed_exercises = {1, 2, 3} ∧
     (run_exercise (scripted behRetry2) 3 [1, 2, 3]
        ⟨{1, 3}, some 103, none⟩).worldOf = [1, 2, 3, 2, 3]) := by
  refine ⟨⟨by decide, by decide, by decide, by decide⟩, by decide, by decide, by decide⟩

/-- Claim C2: for `1 < k ≤ 5` with `k-1` not completed, `run_stage(k)`
executes stage `k` directly after the recursive prerequisite call whatever
boolean that call returned (the result of line 62 is discarded); hence
`run_stage(k)` can return `true` and add `k` to `completed` while `k-1`
stays absent, stage `k` receiving the stale `last_result` — concretely,
with stage 1 always failing, `run_stage(2)` on a fresh orchestrator returns
`true`, `completed == {2}`, and stage 2 received `None` (output token 42). -/
theorem c2_theorem :
    (∀ (σ : Type) (E : Exercises σ) (k : Nat) (w : σ) (s : ProjectState)
        (w2 : σ) (s2 : ProjectState) (b : Bool),
        1 < k → k ≤ 5 → k - 1 ∉ s.executed_exercises →
        run_exercise E (k - 1) w { s with current_exercise := some k } = .ret w2 s2 b →
        run_exercise E k w s =
          execPhase E k w2 { s2 with current_exercise := s.current_exercise }) ∧
    ((run_exercise probeE 2 [] initialState).boolOf = some true ∧
     (run_exercise probeE 2 [] initialState).stateOf.executed_exercises = {2} ∧
     (1 : Nat) ∉ (run_exercise probeE 2 [] initialState).stateOf.executed_exercises ∧
     (run_exercise probeE 2 [] initialState).stateOf.last_dataframe = some 42 ∧
     (run_exercise probeE 2 [] initialState).worldOf = [1, 2]) := by
  constructor
  · intro σ E k w s w2 s2 b h1 h5 hm hrec
    cases k with
    | zero => omega
    | succ m =>
        exact run_exercise_enter_ret E m w s w2 s2 b (mem_EJERCICIOS.mpr ⟨by omega, h5⟩)
          (by omega) (by simpa using hm) hrec
  · refine ⟨by decide, by decide, by decide, by decide, by decide⟩

/-- Witness for C2's universally quantified part, instantiated at `k = 2`
on a fresh orchestrator with all-succeeding stages. -/
theorem c2_witness :
    run_exercise (scripted behOK) 2 [] initialState =
      execPhase (scripted behOK) 2 [1]
        { executed_exercises := {1}, last_dataframe := some 101,
          current_exercise := none } :=
  c2_theorem.1 (List Nat) (scripted behOK) 2 [] initialState [1]
    ⟨{1}, some 101, some 2⟩ true (by decide) (by decide) (by decide) rfl

theorem execPhase_executed_bound (E : Exercises σ) (n : Nat) (w : σ) (s : ProjectState)
    (hn : n ∈ EJERCICIOS) (hs : s.executed_exercises ⊆ EJERCICIOS) :
    ((execPhase E n w s).stateOf).executed_exercises ⊆ EJERCICIOS := by
  unfold execPhase
  rcases execCall E n w s.last_dataframe with ⟨w2, r⟩
  cases r with
  | error e => rw [tryCatchExc_stateOf]; exact hs
  | ok d => exact Finset.insert_subset hn hs

theorem run_exercise_executed_bound (E : Exercises σ) :
    ∀ (n : Nat) (w : σ) (s : ProjectState), s.executed_exercises ⊆ EJERCICIOS →
      ((run_exercise E n w s).stateOf).executed_exercises ⊆ EJERCICIOS := by
  intro n
  induction n with
  | zero => intro w s hs; rw [run_exercise, tryCatchExc_stateOf]; exact hs
  | succ m ih =>
      intro w s hs
      by_cases hn : m + 1 ∈ EJERCICIOS
      · by_cases hc : 0 < m ∧ m ∉ s.executed_exercises
        · rcases hrec : run_exercise E m w
              { s with current_exercise := some (m + 1) } with ⟨w4, s4, b⟩ | ⟨e4, w4, s4⟩
          · rw [run_exercise_enter_ret E m w s w4 s4 b hn hc.1 hc.2 hrec]
            have h2 := ih w { s with current_exercise := some (m + 1) } hs
            rw [hrec] at h2
            exact execPhase_executed_bound E (m + 1) w4 _ hn h2
          · rw [run_exercise_enter_exc E m w s e4 w4 s4 hn hc.1 hc.2 hrec]
            have h2 := ih w { s with current_exercise := some (m + 1) } hs
            rw [hrec] at h2
            rw [tryCatchExc_stateOf]
            exact h2
        · have hm : m + 1 = 1 ∨ (m + 1) - 1 ∈ s.executed_exercises := by
            rcases not_and_or.mp hc with h1 | h2
            · left; omega
            · right; simpa using not_not.mp h2
          rw [run_exercise_skip E (m + 1) w s hn hm]
          exact execPhase_executed_bound E (m + 1) w s hn hs
      · rw [run_exercise_invalid E (m + 1) w s hn]
        exact hs

theorem runAllAux_executed_bound (E : Exercises σ) :
    ∀ (L : List Nat) (w : σ) (s : ProjectState), s.executed_exercises ⊆ EJERCICIOS →
      ((runAllAux E L w s).stateOf).executed_exercises ⊆ EJERCICIOS := by
  intro L
  induction L with
  | nil => intro w s hs; exact hs
  | cons i rest ih =>
      intro w s hs
      rw [runAllAux]
      rcases hr : run_exercise E i w s with ⟨w2, s2, b⟩ | ⟨e, w2, s2⟩
      · have h2 := run_exercise_executed_bound E i w s hs
        rw [hr] at h2
        cases b with
        | true => simpa using ih w2 s2 h2
        | false => exact h2
      · have h2 := run_exercise_executed_bound E i w s hs
        rw [hr] at h2
        exact h2

/-- Claim C8: an id outside the catalogue yields `False` with the world
(hence no stage invocation) and the whole object state unchanged; and
`completed ⊆ {1..5}` is preserved by `run_exercise` and by
`run_all_exercises`. -/
theorem c8_theorem :
    (∀ (σ : Type) (E : Exercises σ) (n : Nat) (w : σ) (s : ProjectState),
        n ∉ EJERCICIOS → run_exercise E n w s = .ret w s false) ∧
    (∀ (σ : Type) (E : Exercises σ) (n : Nat) (w : σ) (s : ProjectState),
        s.executed_exercises ⊆ EJERCICIOS →
        ((run_exercise E n w s).stateOf).executed_exercises ⊆ EJERCICIOS) ∧
    (∀ (σ : Type) (E : Exercises σ) (w : σ) (s : ProjectState),
        ((run_all_exercises E w s).stateOf).executed_exercises ⊆ EJERCICIOS) := by
  refine ⟨?_, ?_, ?_⟩
  · intro σ E n w s hn
    exact run_exercise_invalid E n w s hn
  · intro σ E n w s hs
    exact run_exercise_executed_bound E n w s hs
  · intro σ E w s
    exact runAllAux_executed_bound E (List.range' 1 5) w
      { s with executed_exercises := ∅ } (by simp)

/-- Witness for C8: the invalid id 7 on a fresh orchestrator, and the
invariant after a concrete full run. -/
theorem c8_witness :
    run_exercise (scripted behOK) 7 [] initialState = .ret [] initialState false ∧
    ((run_exercise (scripted behOK) 3 [] initialState).stateOf).executed_exercises
      ⊆ EJERCICIOS ∧
    ((run_all_exercises (scripted behOK) [] initialState).stateOf).executed_exercises
      ⊆ EJERCICIOS :=
  ⟨c8_theorem.1 (List Nat) (scripted behOK) 7 [] initialState (by decide),
   c8_theorem.2.1 (List Nat) (scripted behOK) 3 [] initialState (by decide),
   c8_theorem.2.2 (List Nat) (scripted behOK) [] initialState⟩

theorem scripted_noOther (beh : Nat → Nat → Except PyExc DataFrame)
    (h : ∀ k c, beh k c ≠ .error .other) : NoOther (scripted beh) := by
  refine ⟨fun t => ?_, fun t df => ?_, fun t df => ?_, fun t df => ?_, fun t df => ?_⟩
  · exact h 1 (t.count 1)
  · exact h 2 (t.count 2)
  · exact h 3 (t.count 3)
  · exact h 4 (t.count 4)
  · intro hc
    have h5 := h 5 (t.count 5)
    unfold scripted at hc
    simp only at hc
    rcases hb : beh 5 (t.count 5) with e | v
    · rw [hb] at hc
      cases hc
      exact h5 (by rw [hb])
    · rw [hb] at hc
      simp [Except.map] at hc

/-- Claim C9: assuming every stage function raises only error kinds of the
§7 taxonomy (modelled by the four non-`other` constructors of `PyExc`),
both `run_exercise` and `run_all_exercises` always return a boolean — no
stage error ever escapes them. -/
theorem c9_theorem :
    ∀ (σ : Type) (E : Exercises σ), NoOther E →
      (∀ (n : Nat) (w : σ) (s : ProjectState), (run_exercise E n w s).isRet = true) ∧
      (∀ (w : σ) (s : ProjectState), (run_all_exercises E w s).isRet = true) := by
  intro σ E hE
  exact ⟨noOther_run_exercise E hE,
    fun w s => noOther_runAllAux E hE (List.range' 1 5) w _⟩

/-- Witness for C9: the retry scenario environment raises only
`RuntimeError`, so both entry points return booleans. -/
theorem c9_witness :
    (run_exercise (scripted behRetry2) 5 [] initialState).isRet = true ∧
    (run_all_exercises (scripted behRetry2) [] initialState).isRet = true :=
  ⟨(c9_theorem (List Nat) (scripted behRetry2)
      (scripted_noOther behRetry2 (by
        intro k c
        unfold behRetry2
        split_ifs <;> simp))).1 5 [] initialState,
   (c9_theorem (List Nat) (scripted behRetry2)
      (scripted_noOther behRetry2 (by
        intro k c
        unfold behRetry2
        split_ifs <;> simp))).2 [] initialState⟩

theorem execPhase_current (E : Exercises σ) (n : Nat) (w : σ) (s : ProjectState) :
    ((execPhase E n w s).stateOf).current_exercise = s.current_exercise := by
  unfold execPhase
  rcases hec : execCall E n w s.last_dataframe with ⟨w2, r⟩
  cases r with
  | error e =>
      show ((tryCatchExc e w2 s).stateOf).current_exercise = s.current_exercise
      rw [tryCatchExc_stateOf]
  | ok d => rfl

theorem execPhase_indep (E : Exercises σ) (n : Nat) (w : σ) (ex : Finset Nat)
    (ldf : Option DataFrame) (c1 c2 : Option Nat) :
    (execPhase E n w ⟨ex, ldf, c1⟩).isRet = (execPhase E n w ⟨ex, ldf, c2⟩).isRet ∧
    (execPhase E n w ⟨ex, ldf, c1⟩).worldOf = (execPhase E n w ⟨ex, ldf, c2⟩).worldOf ∧
    (execPhase E n w ⟨ex, ldf, c1⟩).boolOf = (execPhase E n w ⟨ex, ldf, c2⟩).boolOf ∧
    ((execPhase E n w ⟨ex, ldf, c1⟩).stateOf).executed_exercises
      = ((execPhase E n w ⟨ex, ldf, c2⟩).stateOf).executed_exercises ∧
    ((execPhase E n w ⟨ex, ldf, c1⟩).stateOf).last_dataframe
      = ((execPhase E n w ⟨ex, ldf, c2⟩).stateOf).last_dataframe := by
  unfold execPhase
  rcases hec : execCall E n w ldf with ⟨w2, r⟩
  cases r with
  | error e => cases e <;> exact ⟨rfl, rfl, rfl, rfl, rfl⟩
  | ok d => exact ⟨rfl, rfl, rfl, rfl, rfl⟩

/-- Claim C10: the `current_exercise` marker has no functional effect —
starting from two states differing only in it, `run_exercise` produces the
same return kind, world, boolean, `executed_exercises` and
`last_dataframe` — and whenever `run_exercise` returns (rather than
propagating a non-taxonomy exception), `current_exercise` afterwards
equals its value from before the call. -/
theorem c10_theorem :
    ∀ (σ : Type) (E : Exercises σ) (n : Nat) (w : σ) (ex : Finset Nat)
      (ldf : Option DataFrame) (c1 c2 : Option Nat),
      ((run_exercise E n w ⟨ex, ldf, c1⟩).isRet
          = (run_exercise E n w ⟨ex, ldf, c2⟩).isRet ∧
        (run_exercise E n w ⟨ex, ldf, c1⟩).worldOf
          = (run_exercise E n w ⟨ex, ldf, c2⟩).worldOf ∧
        (run_exercise E n w ⟨ex, ldf, c1⟩).boolOf
          = (run_exercise E n w ⟨ex, ldf, c2⟩).boolOf ∧
        ((run_exercise E n w ⟨ex, ldf, c1⟩).stateOf).executed_exercises
          = ((run_exercise E n w ⟨ex, ldf, c2⟩).stateOf).executed_exercises ∧
        ((run_exercise E n w ⟨ex, ldf, c1⟩).stateOf).last_dataframe
          = ((run_exercise E n w ⟨ex, ldf, c2⟩).stateOf).last_dataframe) ∧
      (∀ (s : ProjectState), (run_exercise E n w s).isRet = true →
        ((run_exercise E n w s).stateOf).current_exercise = s.current_exercise) := by
  intro σ E n w ex ldf c1 c2
  constructor
  · cases n with
    | zero => exact ⟨rfl, rfl, rfl, rfl, rfl⟩
    | succ m =>
        by_cases hn : m + 1 ∈ EJERCICIOS
        · by_cases hc : 0 < m ∧ m ∉ ex
          · rcases hrec : run_exercise E m w ⟨ex, ldf, some (m + 1)⟩
                with ⟨w4, s4, b⟩ | ⟨e4, w4, s4⟩
            · rw [run_exercise_enter_ret E m w ⟨ex, ldf, c1⟩ w4 s4 b hn hc.1 hc.2 hrec,
                run_exercise_enter_ret E m w ⟨ex, ldf, c2⟩ w4 s4 b hn hc.1 hc.2 hrec]
              exact execPhase_indep E (m + 1) w4 s4.executed_exercises
                s4.last_dataframe c1 c2
            · rw [run_exercise_enter_exc E m w ⟨ex, ldf, c1⟩ e4 w4 s4 hn hc.1 hc.2 hrec,
                run_exercise_enter_exc E m w ⟨ex, ldf, c2⟩ e4 w4 s4 hn hc.1 hc.2 hrec]
              exact ⟨rfl, rfl, rfl, rfl, rfl⟩
          · have hm : m + 1 = 1 ∨ (m + 1) - 1 ∈
                (⟨ex, ldf, c1⟩ : ProjectState).executed_exercises := by
              rcases not_and_or.mp hc with h1 | h2
              · left; omega
              · right; simpa using not_not.mp h2
            rw [run_exercise_skip E (m + 1) w ⟨ex, ldf, c1⟩ hn hm,
              run_exercise_skip E (m + 1) w ⟨ex, ldf, c2⟩ hn hm]
            exact execPhase_indep E (m + 1) w ex ldf c1 c2
        · rw [run_exercise_invalid E (m + 1) w ⟨ex, ldf, c1⟩ hn,
            run_exercise_invalid E (m + 1) w ⟨ex, ldf, c2⟩ hn]
          exact ⟨rfl, rfl, rfl, rfl, rfl⟩
  · intro s hret
    cases n with
    | zero => rfl
    | succ m =>
        by_cases hn : m + 1 ∈ EJERCICIOS
        · by_cases hc : 0 < m ∧ m ∉ s.executed_exercises
          · rcases hrec : run_exercise E m w { s with current_exercise := some (m + 1) }
                with ⟨w4, s4, b⟩ | ⟨e4, w4, s4⟩
            · rw [run_exercise_enter_ret E m w s w4 s4 b hn hc.1 hc.2 hrec]
              exact execPhase_current E (m + 1) w4 _
            · rw [run_exercise_enter_exc E m w s e4 w4 s4 hn hc.1 hc.2 hrec] at hret
              have he4 : e4 = .other := exc_only_other E m w _ e4 w4 s4 hrec
              subst he4
              simp [tryCatchExc, POut.isRet] at hret
          · have hm : m + 1 = 1 ∨ (m + 1) - 1 ∈ s.executed_exercises := by
              rcases not_and_or.mp hc with h1 | h2
              · left; omega
              · right; simpa using not_not.mp h2
            rw [run_exercise_skip E (m + 1) w s hn hm]
            exact execPhase_current E (m + 1) w s
        · rw [run_exercise_invalid E (m + 1) w s hn]
          rfl

/-- Witness for C10: stage-id 2 with probing stages, marker `none` versus
`some 9`, and restoration on a fresh orchestrator. -/
theorem c10_witness :
    (run_exercise probeE 2 [] ⟨∅, none, none⟩).boolOf
      = (run_exercise probeE 2 [] ⟨∅, none, some 9⟩).boolOf ∧
    ((run_exercise probeE 2 [] initialState).stateOf).current_exercise
      = initialState.current_exercise :=
  ⟨(c10_theorem (List Nat) probeE 2 [] ∅ none none (some 9)).1.2.2.1,
   (c10_theorem (List Nat) probeE 2 [] ∅ none none (some 9)).2 initialState (by decide)⟩

/-- Claim C3, as stated, is false of the code in one point: when `k` was
already in `completed` before the call (explicit re-run) and stage `k` then
raises, `run_stage(k)` returns `false` but `k` REMAINS in `completed` — it
is not removed.  Concretely: `completed = {1}`, stage 1 always raising
`RuntimeError`, `run_stage(1)` returns `false` with `1` still completed. -/
theorem c3_counterexample :
    (run_exercise (scripted behFail1) 1 [] ⟨{1}, none, none⟩).boolOf = some false ∧
    (1 : Nat) ∈
      ((run_exercise (scripted behFail1) 1 [] ⟨{1}, none, none⟩).stateOf).executed_exercises := by
  exact ⟨by decide, by decide⟩

/-- Claim C3 amended: if stage `k`'s function raises a catalogued error
kind at the point of its execution, `run_stage(k)` returns `false` and the
object state is exactly the state `s1` reached after prerequisite
resolution: `k`'s membership in `completed` is unchanged (it is not added;
if it was already present it stays), ids `< k` are as before the stage
executed, and `last_result` is unchanged from immediately before stage
`k`'s execution. -/
theorem c3_theorem :
    ∀ (σ : Type) (E : Exercises σ) (k : Nat) (w : σ) (s : ProjectState)
      (w1 : σ) (s1 : ProjectState) (w2 : σ) (e : PyExc),
      k ∈ EJERCICIOS →
      prereq E k w s = .ok (w1, s1) →
      execCall E k w1 s1.last_dataframe = (w2, .error e) →
      e ≠ .other →
      run_exercise E k w s = .ret w2 s1 false ∧
      ((run_exercise E k w s).stateOf).executed_exercises = s1.executed_exercises ∧
      ((run_exercise E k w s).stateOf).last_dataframe = s1.last_dataframe ∧
      (run_exercise E k w s).boolOf = some false := by
  intro σ E k w s w1 s1 w2 e hk hpr hec he
  have hrun : run_exercise E k w s = .ret w2 s1 false := by
    rw [run_exercise_factor E k w s hk, hpr]
    show execPhase E k w1 s1 = POut.ret w2 s1 false
    unfold execPhase
    rw [hec]
    exact tryCatchExc_caught e he w2 s1
  exact ⟨hrun, by rw [hrun]; rfl, by rw [hrun]; rfl, by rw [hrun]; rfl⟩

/-- Witness for C3's amended theorem: stage 3 always fails; from a fresh
orchestrator `run_stage(3)` runs stages 1 and 2, then stage 3 raises and
the call returns `false` with state exactly as after the prerequisites. -/
theorem c3_witness :
    run_exercise (scripted behFail3) 3 [] initialState =
      .ret [1, 2, 3] ⟨{2, 1}, some 102, none⟩ false :=
  (c3_theorem (List Nat) (scripted behFail3) 3 [] initialState [1, 2]
    ⟨{2, 1}, some 102, none⟩ [1, 2, 3] .runtimeError (by decide) rfl rfl
    (by decide)).1

theorem scripted_alwaysOk (beh : Nat → Nat → Except PyExc DataFrame)
    (h : ∀ k c, ∃ v, beh k c = .ok v) : AlwaysOk (scripted beh) := by
  refine ⟨fun t => ?_, fun t df => ?_, fun t df => ?_, fun t df => ?_, fun t df => ?_⟩
  · obtain ⟨v, hv⟩ := h 1 (t.count 1)
    exact ⟨t ++ [1], v, by simp [scripted, hv]⟩
  · obtain ⟨v, hv⟩ := h 2 (t.count 2)
    exact ⟨t ++ [2], v, by simp [scripted, hv]⟩
  · obtain ⟨v, hv⟩ := h 3 (t.count 3)
    exact ⟨t ++ [3], v, by simp [scripted, hv]⟩
  · obtain ⟨v, hv⟩ := h 4 (t.count 4)
    exact ⟨t ++ [4], v, by simp [scripted, hv]⟩
  · obtain ⟨v, hv⟩ := h 5 (t.count 5)
    exact ⟨t ++ [5], (), by simp [scripted, hv, Except.map]⟩

/-- Claim C6: on a fresh orchestrator with all stage functions succeeding,
`run_stage(id)` for `id ∈ 1..5` returns `true`, leaves
`completed = {1, …, id}`, executes exactly the stages `1, …, id` once each
in ascending order (the appended trace is `[1, …, id]`), and restores the
`current_exercise` marker. -/
theorem c6_theorem :
    ∀ (σ : Type) (E : Exercises σ), AlwaysOk E →
      ∀ (id : Nat), 1 ≤ id → id ≤ 5 → ∀ (t : List Nat) (w : σ),
        (run_exercise (traced E) id (t, w) initialState).boolOf = some true ∧
        ((run_exercise (traced E) id (t, w) initialState).stateOf).executed_exercises
          = Finset.Icc 1 id ∧
        ((run_exercise (traced E) id (t, w) initialState).worldOf).1
          = t ++ List.range' 1 id ∧
        ((run_exercise (traced E) id (t, w) initialState).stateOf).current_exercise
          = none := by
  intro σ E hE id h1 h5 t w
  obtain ⟨w2, d, h⟩ := allOk_fresh E hE id h1 h5 t w initialState rfl
  rw [h]
  exact ⟨rfl, rfl, rfl, rfl⟩

/-- Witness for C6 at `id = 3` with concrete all-succeeding stages. -/
theorem c6_witness :
    (run_exercise (traced (scripted behOK)) 3 ([], []) initialState).boolOf
      = some true ∧
    ((run_exercise (traced (scripted behOK)) 3 ([], []) initialState).stateOf).executed_exercises
      = Finset.Icc 1 3 ∧
    ((run_exercise (traced (scripted behOK)) 3 ([], []) initialState).worldOf).1
      = [1, 2, 3] := by
  have h := c6_theorem (List Nat) (scripted behOK)
    (scripted_alwaysOk behOK (fun k c => ⟨100 + k, rfl⟩)) 3 (by decide) (by decide) [] []
  exact ⟨h.1, h.2.1, by rw [h.2.2.1]; decide⟩

theorem traced_noOther (E : Exercises σ) (hE : NoOther E) : NoOther (traced E) := by
  refine ⟨fun p => ?_, fun p df => ?_, fun p df => ?_, fun p df => ?_, fun p df => ?_⟩
  · simpa [traced] using hE.1 p.2
  · simpa [traced] using hE.2.1 p.2 df
  · simpa [traced] using hE.2.2.1 p.2 df
  · simpa [traced] using hE.2.2.2.1 p.2 df
  · simpa [traced] using hE.2.2.2.2 p.2 df

theorem rerun_skip (E : Exercises σ) (m : Nat) (h1 : 1 ≤ m) (h5 : m ≤ 5)
    (t : List Nat) (w : σ) (s : ProjectState)
    (hpre : m = 1 ∨ m - 1 ∈ s.executed_exercises) (hm : m ∈ s.executed_exercises) :
    ((run_exercise (traced E) m (t, w) s).worldOf).1 = t ++ [m] ∧
    ((run_exercise (traced E) m (t, w) s).stateOf).executed_exercises
      = s.executed_exercises := by
  rw [run_exercise_skip (traced E) m (t, w) s (mem_EJERCICIOS.mpr ⟨h1, h5⟩) hpre]
  constructor
  · exact execPhase_traced_world E m h1 h5 t w s
  · unfold execPhase
    rcases hec : execCall (traced E) m (t, w) s.last_dataframe with ⟨w2, r⟩
    cases r with
    | error e => rw [tryCatchExc_stateOf]
    | ok d => exact Finset.insert_eq_self.mpr hm

theorem rerun_count (E : Exercises σ) (hE : NoOther E) (m : Nat) (h1 : 1 ≤ m) (h5 : m ≤ 5)
    (t : List Nat) (w : σ) (s : ProjectState) (hm : m ∈ s.executed_exercises) :
    (((run_exercise (traced E) m (t, w) s).worldOf).1).count m = t.count m + 1 := by
  cases m with
  | zero => omega
  | succ p =>
      by_cases hc : 0 < p ∧ p ∉ s.executed_exercises
      · have hT : NoOther (traced E) := traced_noOther E hE
        have hret := noOther_run_exercise (traced E) hT p (t, w)
          { s with current_exercise := some (p + 1) }
        rcases hr : run_exercise (traced E) p (t, w)
            { s with current_exercise := some (p + 1) } with ⟨w4, s4, b⟩ | ⟨e4, w4, s4⟩
        · obtain ⟨ext, hext, hbound⟩ := trace_extension E p t w
            { s with current_exercise := some (p + 1) }
          rw [hr] at hext
          rcases w4 with ⟨t4, w4⟩
          simp only [POut.worldOf] at hext
          subst hext
          rw [run_exercise_enter_ret (traced E) p (t, w) s _ s4 b
            (mem_EJERCICIOS.mpr ⟨by omega, h5⟩) hc.1 hc.2 hr]
          rw [execPhase_traced_world E (p + 1) (by omega) h5 _ w4 _]
          have hnotin : (p + 1) ∉ ext := fun hx => by have := hbound _ hx; omega
          simp [List.count_append, List.count_eq_zero.mpr hnotin]
        · rw [hr] at hret
          simp [POut.isRet] at hret
      · have hpre : p + 1 = 1 ∨ (p + 1) - 1 ∈ s.executed_exercises := by
          rcases not_and_or.mp hc with h | h
          · left; omega
          · right; simpa using not_not.mp h
        have h := rerun_skip E (p + 1) (by omega) h5 t w s hpre hm
        rw [h.1]
        simp [List.count_append]

/-- Claim C7, as stated, is false of the code in one point: for
`completed = {2}` (stage 2 completed but its prerequisite missing) with
all-succeeding stages, `run_stage(2)` runs the missing prerequisite and
adds it, so membership of `completed` changes from `{2}` to `{1, 2}`. -/
theorem c7_counterexample :
    ((run_exercise (scripted behOK) 2 [] ⟨{2}, none, none⟩).stateOf).executed_exercises
      ≠ {2} ∧
    ((run_exercise (scripted behOK) 2 [] ⟨{2}, none, none⟩).stateOf).executed_exercises
      = {1, 2} ∧
    (run_exercise (scripted behOK) 2 [] ⟨{2}, none, none⟩).worldOf = [1, 2] := by
  exact ⟨by decide, by decide, by decide⟩

/-- Claim C7 amended.  (1) For every `m ∈ completed` (stages raising only
taxonomy kinds), `run_stage(m)` executes stage `m`'s function exactly once
— the explicitly requested stage is never skipped.  (2) If additionally
`m`'s prerequisite is completed, stage `m` is the ONLY stage executed and
the membership of `completed` is unchanged; without that proviso,
prerequisite resolution may run and add missing lower ids.  (3) If
`completed ⊇ {1..k}`, `run_stage(k+1)` executes only stage `k+1` and does
not re-execute stages `1..k`. -/
theorem c7_theorem :
    (∀ (σ : Type) (E : Exercises σ), NoOther E →
      ∀ (m : Nat), 1 ≤ m → m ≤ 5 → ∀ (t : List Nat) (w : σ) (s : ProjectState),
        m ∈ s.executed_exercises →
        (((run_exercise (traced E) m (t, w) s).worldOf).1).count m
          = t.count m + 1) ∧
    (∀ (σ : Type) (E : Exercises σ) (m : Nat), 1 ≤ m → m ≤ 5 →
      ∀ (t : List Nat) (w : σ) (s : ProjectState),
        m ∈ s.executed_exercises → (m = 1 ∨ m - 1 ∈ s.executed_exercises) →
        ((run_exercise (traced E) m (t, w) s).worldOf).1 = t ++ [m] ∧
        ((run_exercise (traced E) m (t, w) s).stateOf).executed_exercises
          = s.executed_exercises) ∧
    (∀ (σ : Type) (E : Exercises σ) (k : Nat), k + 1 ≤ 5 →
      ∀ (t : List Nat) (w : σ) (s : ProjectState),
        Finset.Icc 1 k ⊆ s.executed_exercises →
        ((run_exercise (traced E) (k + 1) (t, w) s).worldOf).1 = t ++ [k + 1]) := by
  refine ⟨?_, ?_, ?_⟩
  · intro σ E hE m h1 h5 t w s hm
    exact rerun_count E hE m h1 h5 t w s hm
  · intro σ E m h1 h5 t w s hm hpre
    exact rerun_skip E m h1 h5 t w s hpre hm
  · intro σ E k h5 t w s hsub
    have hpre : k + 1 = 1 ∨ (k + 1) - 1 ∈ s.executed_exercises := by
      rcases Nat.eq_zero_or_pos k with rfl | hk
      · left; rfl
      · right
        simpa using hsub (Finset.mem_Icc.mpr ⟨hk, le_refl k⟩)
    rw [run_exercise_skip (traced E) (k + 1) (t, w) s
      (mem_EJERCICIOS.mpr ⟨by omega, h5⟩) hpre]
    exact execPhase_traced_world E (k + 1) (by omega) h5 t w s

/-- Witness for C7: `completed = {1, 2}`, requested stage 2 (re-run: trace
gains exactly one `2`), and requested stage 3 (skip-if-done: trace `[3]`). -/
theorem c7_witness :
    ((((run_exercise (traced (scripted behOK)) 2 ([], []) ⟨{1, 2}, none, none⟩).worldOf).1).count 2
      = ([] : List Nat).count 2 + 1) ∧
    (((run_exercise (traced (scripted behOK)) 2 ([], []) ⟨{1, 2}, none, none⟩).worldOf).1
      = [2]) ∧
    (((run_exercise (traced (scripted behOK)) 2 ([], []) ⟨{1, 2}, none, none⟩).stateOf).executed_exercises
      = {1, 2}) ∧
    (((run_exercise (traced (scripted behOK)) 3 ([], []) ⟨{1, 2}, none, none⟩).worldOf).1
      = [3]) := by
  have hNo : NoOther (scripted behOK) :=
    scripted_noOther behOK (by intro k _c; unfold behOK; simp)
  have h1 := c7_theorem.1 (List Nat) (scripted behOK) hNo 2 (by decide) (by decide)
    [] [] ⟨{1, 2}, none, none⟩ (by decide)
  have h2 := c7_theorem.2.1 (List Nat) (scripted behOK) 2 (by decide) (by decide)
    [] [] ⟨{1, 2}, none, none⟩ (by decide) (by decide)
  have h3 := c7_theorem.2.2 (List Nat) (scripted behOK) 2 (by decide)
    [] [] ⟨{1, 2}, none, none⟩ (by decide)
  exact ⟨h1, by simpa using h2.1, h2.2, by simpa using h3⟩

theorem run_exercise_skip_ok (E : Exercises σ) (n : Nat) (hn : n ∈ EJERCICIOS)
    (w w2 : σ) (s : ProjectState) (d : Option DataFrame)
    (hpre : n = 1 ∨ n - 1 ∈ s.executed_exercises)
    (hec : execCall E n w s.last_dataframe = (w2, .ok d)) :
    run_exercise E n w s =
      .ret w2 ⟨insert n s.executed_exercises, d, s.current_exercise⟩ true := by
  rw [run_exercise_skip E n w s hn hpre]
  unfold execPhase
  rw [hec]

theorem run_exercise_skip_err (E : Exercises σ) (n : Nat) (hn : n ∈ EJERCICIOS)
    (w w2 : σ) (s : ProjectState) (e : PyExc)
    (hpre : n = 1 ∨ n - 1 ∈ s.executed_exercises)
    (hec : execCall E n w s.last_dataframe = (w2, .error e)) (he : e ≠ .other) :
    run_exercise E n w s = .ret w2 s false := by
  rw [run_exercise_skip E n w s hn hpre]
  unfold execPhase
  rw [hec]
  exact tryCatchExc_caught e he w2 s

theorem runAllAux_mono (E : Exercises σ) :
    ∀ (L : List Nat) (w : σ) (s : ProjectState),
      s.executed_exercises ⊆ ((runAllAux E L w s).stateOf).executed_exercises := by
  intro L
  induction L with
  | nil => intro w s; exact Finset.Subset.refl _
  | cons i rest ih =>
      intro w s
      rw [runAllAux]
      rcases hr : run_exercise E i w s with ⟨w2, s2, b⟩ | ⟨e, w2, s2⟩
      · have h2 := run_exercise_executed_mono E i w s
        rw [hr] at h2
        cases b with
        | true => exact h2.trans (by simpa using ih w2 s2)
        | false => exact h2
      · have h2 := run_exercise_executed_mono E i w s
        rw [hr] at h2
        exact h2

theorem runAllAux_true (E : Exercises σ) :
    ∀ (L : List Nat) (w : σ) (s : ProjectState) (w2 : σ) (s2 : ProjectState),
      runAllAux E L w s = .ret w2 s2 true →
      ∀ i ∈ L, i ∈ s2.executed_exercises := by
  intro L
  induction L with
  | nil => intro w s w2 s2 h i hi; simp at hi
  | cons j rest ih =>
      intro w s w2 s2 h i hi
      rw [runAllAux] at h
      rcases hr : run_exercise E j w s with ⟨w3, s3, b⟩ | ⟨e, w3, s3⟩
      · rw [hr] at h
        cases b with
        | false => simp at h
        | true =>
            simp only [if_true] at h
            rcases List.mem_cons.mp hi with rfl | hrest
            · have hj : i ∈ s3.executed_exercises := ret_true_mem E i w s w3 s3 hr
              have hmono := runAllAux_mono E rest w3 s3
              rw [h] at hmono
              exact hmono hj
            · exact ih w3 s3 w2 s2 h i hrest
      · rw [hr] at h
        simp at h

theorem runAll_true_executed (E : Exercises σ) (w : σ) (s : ProjectState)
    (w2 : σ) (s2 : ProjectState)
    (h : run_all_exercises E w s = .ret w2 s2 true) :
    s2.executed_exercises = EJERCICIOS := by
  unfold run_all_exercises at h
  apply Finset.Subset.antisymm
  · have hb := runAllAux_executed_bound E (List.range' 1 5) w
      { s with executed_exercises := ∅ } (by simp)
    rw [h] at hb
    exact hb
  · intro i hi
    exact runAllAux_true E (List.range' 1 5) w _ w2 s2 h i
      (by rw [(by decide : List.range' 1 5 = [1, 2, 3, 4, 5])]
          simp only [List.mem_cons, List.not_mem_nil, or_false]
          have := mem_EJERCICIOS.mp hi
          omega)

/-- Claim C4: `run_all()` clears `completed` first (so from any prior
state, a fully-completed one included, all five stages are re-executed in
ascending order when they succeed, appending trace `[1,2,3,4,5]` and
returning `true`); it stops at the first failure (stage 3 failing means
stages 4 and 5 are never attempted, trace `[1,2,3]`, result `false`); and
it returns `true` only when every stage completed. -/
theorem c4_theorem :
    (∀ (σ : Type) (E : Exercises σ), AlwaysOk E →
      ∀ (t : List Nat) (w : σ) (s : ProjectState),
        (run_all_exercises (traced E) (t, w) s).boolOf = some true ∧
        ((run_all_exercises (traced E) (t, w) s).stateOf).executed_exercises
          = Finset.Icc 1 5 ∧
        ((run_all_exercises (traced E) (t, w) s).worldOf).1 = t ++ [1, 2, 3, 4, 5]) ∧
    (∀ (σ : Type) (E : Exercises σ),
      (∀ w, ∃ w2 v, E.ex1 w = (w2, .ok v)) →
      (∀ w df, ∃ w2 v, E.ex2 w df = (w2, .ok v)) →
      (∀ w df, ∃ w2 e, E.ex3 w df = (w2, .error e) ∧ e ≠ PyExc.other) →
      ∀ (t : List Nat) (w : σ) (s : ProjectState),
        (run_all_exercises (traced E) (t, w) s).boolOf = some false ∧
        ((run_all_exercises (traced E) (t, w) s).stateOf).executed_exercises
          = {1, 2} ∧
        ((run_all_exercises (traced E) (t, w) s).worldOf).1 = t ++ [1, 2, 3]) ∧
    (∀ (σ : Type) (E : Exercises σ) (w : σ) (s : ProjectState) (w2 : σ)
        (s2 : ProjectState),
      run_all_exercises E w s = .ret w2 s2 true →
      s2.executed_exercises = EJERCICIOS) := by
  refine ⟨?_, ?_, ?_⟩
  · intro σ E hE t w s
    obtain ⟨w1, v1, h1⟩ := hE.1 w
    obtain ⟨w2, v2, h2⟩ := hE.2.1 w1 (some v1)
    obtain ⟨w3, v3, h3⟩ := hE.2.2.1 w2 (some v2)
    obtain ⟨w4, v4, h4⟩ := hE.2.2.2.1 w3 (some v3)
    obtain ⟨w5, v5, h5⟩ := hE.2.2.2.2 w4 (some v4)
    have e1 : run_exercise (traced E) 1 (t, w) { s with executed_exercises := ∅ } =
        .ret (t ++ [1], w1) ⟨insert 1 ∅, some v1, s.current_exercise⟩ true :=
      run_exercise_skip_ok (traced E) 1 (by decide) (t, w) (t ++ [1], w1) _ (some v1)
        (Or.inl rfl) (by simp [execCall, traced, h1, Except.map])
    have e2 : run_exercise (traced E) 2 (t ++ [1], w1)
        ⟨insert 1 ∅, some v1, s.current_exercise⟩ =
        .ret (t ++ [1] ++ [2], w2)
          ⟨insert 2 (insert 1 ∅), some v2, s.current_exercise⟩ true :=
      run_exercise_skip_ok (traced E) 2 (by decide) _ _ _ (some v2)
        (Or.inr (by simp)) (by simp [execCall, traced, h2, Except.map])
    have e3 : run_exercise (traced E) 3 (t ++ [1] ++ [2], w2)
        ⟨insert 2 (insert 1 ∅), some v2, s.current_exercise⟩ =
        .ret (t ++ [1] ++ [2] ++ [3], w3)
          ⟨insert 3 (insert 2 (insert 1 ∅)), some v3, s.current_exercise⟩ true :=
      run_exercise_skip_ok (traced E) 3 (by decide) _ _ _ (some v3)
        (Or.inr (by simp)) (by simp [execCall, traced, h3, Except.map])
    have e4 : run_exercise (traced E) 4 (t ++ [1] ++ [2] ++ [3], w3)
        ⟨insert 3 (insert 2 (insert 1 ∅)), some v3, s.current_exercise⟩ =
        .ret (t ++ [1] ++ [2] ++ [3] ++ [4], w4)
          ⟨insert 4 (insert 3 (insert 2 (insert 1 ∅))), some v4,
            s.current_exercise⟩ true :=
      run_exercise_skip_ok (traced E) 4 (by decide) _ _ _ (some v4)
        (Or.inr (by simp)) (by simp [execCall, traced, h4, Except.map])
    have e5 : run_exercise (traced E) 5 (t ++ [1] ++ [2] ++ [3] ++ [4], w4)
        ⟨insert 4 (insert 3 (insert 2 (insert 1 ∅))), some v4,
          s.current_exercise⟩ =
        .ret (t ++ [1] ++ [2] ++ [3] ++ [4] ++ [5], w5)
          ⟨insert 5 (insert 4 (insert 3 (insert 2 (insert 1 ∅)))), some v4,
            s.current_exercise⟩ true :=
      run_exercise_skip_ok (traced E) 5 (by decide) _ _ _ (some v4)
        (Or.inr (by simp)) (by simp [execCall, traced, h5, Except.map])
    unfold run_all_exercises
    rw [(by decide : List.range' 1 5 = [1, 2, 3, 4, 5])]
    simp only [runAllAux, e1, e2, e3, e4, e5, if_true, POut.boolOf, POut.stateOf,
      POut.worldOf]
    refine ⟨trivial, by decide, by simp⟩
  · intro σ E h1a h2a h3a t w s
    obtain ⟨w1, v1, h1⟩ := h1a w
    obtain ⟨w2, v2, h2⟩ := h2a w1 (some v1)
    obtain ⟨w3, e3x, h3, hne⟩ := h3a w2 (some v2)
    have e1 : run_exercise (traced E) 1 (t, w) { s with executed_exercises := ∅ } =
        .ret (t ++ [1], w1) ⟨insert 1 ∅, some v1, s.current_exercise⟩ true :=
      run_exercise_skip_ok (traced E) 1 (by decide) (t, w) (t ++ [1], w1) _ (some v1)
        (Or.inl rfl) (by simp [execCall, traced, h1, Except.map])
    have e2 : run_exercise (traced E) 2 (t ++ [1], w1)
        ⟨insert 1 ∅, some v1, s.current_exercise⟩ =
        .ret (t ++ [1] ++ [2], w2)
          ⟨insert 2 (insert 1 ∅), some v2, s.current_exercise⟩ true :=
      run_exercise_skip_ok (traced E) 2 (by decide) _ _ _ (some v2)
        (Or.inr (by simp)) (by simp [execCall, traced, h2, Except.map])
    have e3 : run_exercise (traced E) 3 (t ++ [1] ++ [2], w2)
        ⟨insert 2 (insert 1 ∅), some v2, s.current_exercise⟩ =
        .ret (t ++ [1] ++ [2] ++ [3], w3)
          ⟨insert 2 (insert 1 ∅), some v2, s.current_exercise⟩ false :=
      run_exercise_skip_err (traced E) 3 (by decide) _ _ _ e3x
        (Or.inr (by simp)) (by simp [execCall, traced, h3, Except.map]) hne
    unfold run_all_exercises
    rw [(by decide : List.range' 1 5 = [1, 2, 3, 4, 5])]
    simp only [runAllAux, e1, e2, e3, if_true, Bool.false_eq_true, if_false,
      POut.boolOf, POut.stateOf, POut.worldOf]
    refine ⟨trivial, by decide, by simp⟩
  · intro σ E w s w2 s2 h
    exact runAll_true_executed E w s w2 s2 h

/-- Witness for C4: a concrete all-succeeding run (reset, ascending order,
`true`), a concrete run with stage 3 failing (stages 4, 5 unattempted,
`false`), and the completed set of a concrete `true` run. -/
theorem c4_witness :
    (run_all_exercises (traced (scripted behOK)) ([], []) initialState).boolOf
      = some true ∧
    ((run_all_exercises (traced (scripted behOK)) ([], []) initialState).worldOf).1
      = [1, 2, 3, 4, 5] ∧
    (run_all_exercises (traced (scripted behFail3)) ([], []) initialState).boolOf
      = some false ∧
    ((run_all_exercises (traced (scripted behFail3)) ([], []) initialState).worldOf).1
      = [1, 2, 3] ∧
    (⟨{5, 4, 3, 2, 1}, some 104, none⟩ : ProjectState).executed_exercises
      = EJERCICIOS := by
  have hA := c4_theorem.1 (List Nat) (scripted behOK)
    (scripted_alwaysOk behOK (fun k c => ⟨100 + k, rfl⟩)) [] [] initialState
  have hB := c4_theorem.2.1 (List Nat) (scripted behFail3)
    (fun t => ⟨t ++ [1], 101, rfl⟩)
    (fun t df => ⟨t ++ [2], 102, rfl⟩)
    (fun t df => ⟨t ++ [3], .runtimeError, rfl, by decide⟩)
    [] [] initialState
  have hC := c4_theorem.2.2 (List Nat) (scripted behOK) [] initialState
    [1, 2, 3, 4, 5] ⟨{5, 4, 3, 2, 1}, some 104, none⟩ rfl
  exact ⟨hA.1, by simpa using hA.2.2, hB.1, by simpa using hB.2.2, hC⟩

theorem execPhase_ok (E : Exercises σ) (n : Nat) (w : σ) (s : ProjectState)
    (w2 : σ) (d : Option DataFrame)
    (hec : execCall E n w s.last_dataframe = (w2, .ok d)) :
    execPhase E n w s =
      .ret w2 ⟨insert n s.executed_exercises, d, s.current_exercise⟩ true := by
  unfold execPhase
  rw [hec]

theorem run_exercise_enter_ok (E : Exercises σ) (m : Nat) (w : σ) (s : ProjectState)
    (w2 : σ) (s2 : ProjectState) (b : Bool)
    (hn : m + 1 ∈ EJERCICIOS) (h1 : 0 < m) (hm : m ∉ s.executed_exercises)
    (hrec : run_exercise E m w { s with current_exercise := some (m + 1) } = .ret w2 s2 b)
    (w3 : σ) (d : Option DataFrame)
    (hec : execCall E (m + 1) w2 s2.last_dataframe = (w3, .ok d)) :
    run_exercise E (m + 1) w s =
      .ret w3 ⟨insert (m + 1) s2.executed_exercises, d, s.current_exercise⟩ true := by
  rw [run_exercise_enter_ret E m w s w2 s2 b hn h1 hm hrec]
  exact execPhase_ok E (m + 1) w2 { s2 with current_exercise := s.current_exercise }
    w3 d hec

/-- Claim C5, as stated, is false of the code: with stage 1 always failing
(and the rest succeeding), `run_all()` short-circuits after stage 1 and
returns `false` with nothing completed, while `clear; run_stage(5)` runs
all five stages (failed prerequisites notwithstanding), returns `true`,
and completes `{2,3,4,5}` — different boolean, different completed set,
different executed-stage sequence. -/
theorem c5_counterexample :
    (run_all_exercises (scripted behFail1) [] initialState).boolOf = some false ∧
    (run_all_exercises (scripted behFail1) [] initialState).worldOf = [1] ∧
    ((run_all_exercises (scripted behFail1) [] initialState).stateOf).executed_exercises
      = ∅ ∧
    (run_exercise (scripted behFail1) 5 []
      { initialState with executed_exercises := ∅ }).boolOf = some true ∧
    (run_exercise (scripted behFail1) 5 []
      { initialState with executed_exercises := ∅ }).worldOf = [1, 2, 3, 4, 5] ∧
    ((run_exercise (scripted behFail1) 5 []
      { initialState with executed_exercises := ∅ }).stateOf).executed_exercises
      = {2, 3, 4, 5} ∧
    (run_all_exercises (scripted behFail1) [] initialState).boolOf ≠
      (run_exercise (scripted behFail1) 5 []
        { initialState with executed_exercises := ∅ }).boolOf := by
  refine ⟨by decide, by decide, by decide, by decide, by decide, by decide, by decide⟩

/-- Claim C5 amended: when every stage function succeeds, `run_all()` is
extensionally equal to clearing `completed` and calling `run_stage(5)`:
same outcome, same final state, same world — in particular the same stage
invocations in the same order. -/
theorem c5_theorem :
    ∀ (σ : Type) (E : Exercises σ), AlwaysOk E →
      ∀ (t : List Nat) (w : σ) (s : ProjectState),
        run_all_exercises (traced E) (t, w) s =
          run_exercise (traced E) 5 (t, w) { s with executed_exercises := ∅ } := by
  intro σ E hE t w s
  obtain ⟨w1, v1, h1⟩ := hE.1 w
  obtain ⟨w2, v2, h2⟩ := hE.2.1 w1 (some v1)
  obtain ⟨w3, v3, h3⟩ := hE.2.2.1 w2 (some v2)
  obtain ⟨w4, v4, h4⟩ := hE.2.2.2.1 w3 (some v3)
  obtain ⟨w5, v5, h5⟩ := hE.2.2.2.2 w4 (some v4)
  have e1 : run_exercise (traced E) 1 (t, w) { s with executed_exercises := ∅ } =
      .ret (t ++ [1], w1) ⟨insert 1 ∅, some v1, s.current_exercise⟩ true :=
    run_exercise_skip_ok (traced E) 1 (by decide) (t, w) (t ++ [1], w1) _ (some v1)
      (Or.inl rfl) (by simp [execCall, traced, h1, Except.map])
  have e2 : run_exercise (traced E) 2 (t ++ [1], w1)
      ⟨insert 1 ∅, some v1, s.current_exercise⟩ =
      .ret (t ++ [1] ++ [2], w2)
        ⟨insert 2 (insert 1 ∅), some v2, s.current_exercise⟩ true :=
    run_exercise_skip_ok (traced E) 2 (by decide) _ _ _ (some v2)
      (Or.inr (by simp)) (by simp [execCall, traced, h2, Except.map])
  have e3 : run_exercise (traced E) 3 (t ++ [1] ++ [2], w2)
      ⟨insert 2 (insert 1 ∅), some v2, s.current_exercise⟩ =
      .ret (t ++ [1] ++ [2] ++ [3], w3)
        ⟨insert 3 (insert 2 (insert 1 ∅)), some v3, s.current_exercise⟩ true :=
    run_exercise_skip_ok (traced E) 3 (by decide) _ _ _ (some v3)
      (Or.inr (by simp)) (by simp [execCall, traced, h3, Except.map])
  have e4 : run_exercise (traced E) 4 (t ++ [1] ++ [2] ++ [3], w3)
      ⟨insert 3 (insert 2 (insert 1 ∅)), some v3, s.current_exercise⟩ =
      .ret (t ++ [1] ++ [2] ++ [3] ++ [4], w4)
        ⟨insert 4 (insert 3 (insert 2 (insert 1 ∅))), some v4,
          s.current_exercise⟩ true :=
    run_exercise_skip_ok (traced E) 4 (by decide) _ _ _ (some v4)
      (Or.inr (by simp)) (by simp [execCall, traced, h4, Except.map])
  have e5 : run_exercise (traced E) 5 (t ++ [1] ++ [2] ++ [3] ++ [4], w4)
      ⟨insert 4 (insert 3 (insert 2 (insert 1 ∅))), some v4,
        s.current_exercise⟩ =
      .ret (t ++ [1] ++ [2] ++ [3] ++ [4] ++ [5], w5)
        ⟨insert 5 (insert 4 (insert 3 (insert 2 (insert 1 ∅)))), some v4,
          s.current_exercise⟩ true :=
    run_exercise_skip_ok (traced E) 5 (by decide) _ _ _ (some v4)
      (Or.inr (by simp)) (by simp [execCall, traced, h5, Except.map])
  have eL : run_all_exercises (traced E) (t, w) s =
      .ret (t ++ [1] ++ [2] ++ [3] ++ [4] ++ [5], w5)
        ⟨insert 5 (insert 4 (insert 3 (insert 2 (insert 1 ∅)))), some v4,
          s.current_exercise⟩ true := by
    unfold run_all_exercises
    rw [(by decide : List.range' 1 5 = [1, 2, 3, 4, 5])]
    simp only [runAllAux, e1, e2, e3, e4, e5, if_true]
  have r1 : run_exercise (traced E) 1 (t, w) ⟨∅, s.last_dataframe, some 2⟩ =
      .ret (t ++ [1], w1) ⟨insert 1 ∅, some v1, some 2⟩ true :=
    run_exercise_skip_ok (traced E) 1 (by decide) (t, w) (t ++ [1], w1) _ (some v1)
      (Or.inl rfl) (by simp [execCall, traced, h1, Except.map])
  have r2 : run_exercise (traced E) 2 (t, w) ⟨∅, s.last_dataframe, some 3⟩ =
      .ret (t ++ [1] ++ [2], w2) ⟨insert 2 (insert 1 ∅), some v2, some 3⟩ true :=
    run_exercise_enter_ok (traced E) 1 (t, w) ⟨∅, s.last_dataframe, some 3⟩
      (t ++ [1], w1) ⟨insert 1 ∅, some v1, some 2⟩ true (by decide) (by decide)
      (by simp) r1 (t ++ [1] ++ [2], w2) (some v2)
      (by simp [execCall, traced, h2, Except.map])
  have r3 : run_exercise (traced E) 3 (t, w) ⟨∅, s.last_dataframe, some 4⟩ =
      .ret (t ++ [1] ++ [2] ++ [3], w3)
        ⟨insert 3 (insert 2 (insert 1 ∅)), some v3, some 4⟩ true :=
    run_exercise_enter_ok (traced E) 2 (t, w) ⟨∅, s.last_dataframe, some 4⟩
      (t ++ [1] ++ [2], w2) ⟨insert 2 (insert 1 ∅), some v2, some 3⟩ true
      (by decide) (by decide) (by simp) r2 (t ++ [1] ++ [2] ++ [3], w3) (some v3)
      (by simp [execCall, traced, h3, Except.map])
  have r4 : run_exercise (traced E) 4 (t, w) ⟨∅, s.last_dataframe, some 5⟩ =
      .ret (t ++ [1] ++ [2] ++ [3] ++ [4], w4)
        ⟨insert 4 (insert 3 (insert 2 (insert 1 ∅))), some v4, some 5⟩ true :=
    run_exercise_enter_ok (traced E) 3 (t, w) ⟨∅, s.last_dataframe, some 5⟩
      (t ++ [1] ++ [2] ++ [3], w3) ⟨insert 3 (insert 2 (insert 1 ∅)), some v3, some 4⟩
      true (by decide) (by decide) (by simp) r3
      (t ++ [1] ++ [2] ++ [3] ++ [4], w4) (some v4)
      (by simp [execCall, traced, h4, Except.map])
  have eR : run_exercise (traced E) 5 (t, w) { s with executed_exercises := ∅ } =
      .ret (t ++ [1] ++ [2] ++ [3] ++ [4] ++ [5], w5)
        ⟨insert 5 (insert 4 (insert 3 (insert 2 (insert 1 ∅)))), some v4,
          s.current_exercise⟩ true :=
    run_exercise_enter_ok (traced E) 4 (t, w) { s with executed_exercises := ∅ }
      (t ++ [1] ++ [2] ++ [3] ++ [4], w4)
      ⟨insert 4 (insert 3 (insert 2 (insert 1 ∅))), some v4, some 5⟩ true
      (by decide) (by decide) (by simp) r4
      (t ++ [1] ++ [2] ++ [3] ++ [4] ++ [5], w5) (some v4)
      (by simp [execCall, traced, h5, Except.map])
  rw [eL, eR]

/-- Witness for C5's amended theorem with concrete all-succeeding stages. -/
theorem c5_witness :
    run_all_exercises (traced (scripted behOK)) ([], []) initialState =
      run_exercise (traced (scripted behOK)) 5 ([], [])
        { initialState with executed_exercises := ∅ } :=
  c5_theorem (List Nat) (scripted behOK)
    (scripted_alwaysOk behOK (fun k c => ⟨100 + k, rfl⟩)) [] [] initialState
